import Mathlib

/-!
Shallow embedding of the pure decision logic of `src/main.rs` from the
`hello-vulkan` repository: physical-device suitability checking, queue-family
index resolution, swapchain configuration (surface format, present mode,
extent, image count), logical-device queue deduplication, shader-module
alignment validation, the debug-message classification callback, and the
creation/destruction ordering of the application's resources.

Machine integers (`u32`) are modelled as `Nat`, with explicit bounds or
`% 2^32` where overflow matters.  Rust panics are modelled as `Option.none`.
-/

namespace HelloVulkan

/-- `vk::TRUE` (a `Bool32` of value 1). -/
def VK_TRUE : Nat := 1

/-- `vk::FALSE` (a `Bool32` of value 0). -/
def VK_FALSE : Nat := 0

/-- `u32::MAX`. -/
def U32_MAX : Nat := 4294967295

/-- `vk::PhysicalDeviceType` (main.rs line 396 compares against `DISCRETE_GPU`). -/
inductive PhysicalDeviceType where
  | other
  | integratedGpu
  | discreteGpu
  | virtualGpu
  | cpu
deriving DecidableEq

/-- `vk::Format`; only the variants the program's logic distinguishes. -/
inductive Format where
  | b8g8r8a8Srgb
  | b8g8r8a8Unorm
  | r8g8b8a8Srgb
deriving DecidableEq

/-- `vk::ColorSpaceKHR`; only the variants the program's logic distinguishes. -/
inductive ColorSpaceKHR where
  | srgbNonlinear
  | displayP3Nonlinear
deriving DecidableEq

/-- `vk::SurfaceFormatKHR`: a pixel format together with a color space. -/
structure SurfaceFormatKHR where
  format : Format
  colorSpace : ColorSpaceKHR
deriving DecidableEq

/-- `vk::PresentModeKHR`. -/
inductive PresentModeKHR where
  | immediate
  | mailbox
  | fifo
  | fifoRelaxed
deriving DecidableEq

/-- `vk::Extent2D`: a width/height pair of `u32`. -/
structure Extent2D where
  width : Nat
  height : Nat
deriving DecidableEq

/-- The fields of `vk::SurfaceCapabilitiesKHR` the program reads
(`min_image_count`, `max_image_count`, `current_extent`, `min_image_extent`,
`max_image_extent`). -/
structure SurfaceCapabilitiesKHR where
  minImageCount : Nat
  maxImageCount : Nat
  currentExtent : Extent2D
  minImageExtent : Extent2D
  maxImageExtent : Extent2D
deriving DecidableEq

/-- One entry of `get_physical_device_queue_family_properties`, paired with the
per-index result of `get_physical_device_surface_support` (queried against the
application's surface): `graphics` is `queue_flags.contains(GRAPHICS)`,
`present` is surface support for this family's index. -/
structure QueueFamilyProperties where
  graphics : Bool
  present : Bool
deriving DecidableEq

/-- A physical-device record: everything `check_physical_device` queries about
a candidate device (properties, features, queue families with surface support,
device extension names, surface formats, present modes). -/
structure PhysicalDeviceRecord where
  deviceType : PhysicalDeviceType
  geometryShader : Nat
  queueFamilies : List QueueFamilyProperties
  extensions : List String
  formats : List SurfaceFormatKHR
  presentModes : List PresentModeKHR

/-- `DEVICE_EXTENSIONS` (main.rs line 520): the single required device
extension, the swapchain extension. -/
def DEVICE_EXTENSIONS : List String := ["VK_KHR_swapchain"]

/-- `Iterator::position`: index of the first element satisfying the predicate. -/
def position (p : α → Bool) : List α → Option Nat
  | [] => none
  | x :: xs => if p x then some 0 else (position p xs).map (· + 1)

/-- `QueueFamilyIndices` (main.rs lines 425-428). -/
structure QueueFamilyIndices where
  graphics : Nat
  present : Nat
deriving DecidableEq

/-- `QueueFamilyIndices::get` (main.rs lines 430-459): `graphics` is the index
of the first queue family whose flags contain `GRAPHICS`; `present` is the
first index with surface support (the loop breaks at the first hit).  Returns
`some` only when both resolve. -/
def QueueFamilyIndices.get (qs : List QueueFamilyProperties) : Option QueueFamilyIndices :=
  match position (fun p => p.graphics) qs, position (fun p => p.present) qs with
  | some g, some p => some ⟨g, p⟩
  | _, _ => none

/-- `check_physical_device_extensions` (main.rs lines 522-543): every required
device extension name must occur in the device's extension list.  (The source
compares zero-padded 256-byte name buffers; on names this is string equality.) -/
def check_physical_device_extensions (d : PhysicalDeviceRecord) : Bool :=
  DEVICE_EXTENSIONS.all (fun e => d.extensions.contains e)

/-- `check_physical_device` (main.rs lines 389-423): sequential early-return
checks — discrete GPU, geometry-shader feature, queue-family indices resolve,
required extensions present, non-empty surface-format and present-mode lists. -/
def check_physical_device (d : PhysicalDeviceRecord) : Bool :=
  if d.deviceType ≠ PhysicalDeviceType.discreteGpu then false
  else if d.geometryShader ≠ VK_TRUE then false
  else if (QueueFamilyIndices.get d.queueFamilies).isNone then false
  else if ¬ check_physical_device_extensions d then false
  else if d.formats.isEmpty ∨ d.presentModes.isEmpty then false
  else true

/-- `get_swapchain_surface_format` (main.rs lines 578-587): first format that
is `B8G8R8A8_SRGB` with `SRGB_NONLINEAR`, else `formats[0]`.  The fallback
index panics on an empty list, modelled by `none` (via `head?`). -/
def get_swapchain_surface_format (formats : List SurfaceFormatKHR) : Option SurfaceFormatKHR :=
  match formats.find? (fun f =>
      f.format == Format.b8g8r8a8Srgb && f.colorSpace == ColorSpaceKHR.srgbNonlinear) with
  | some f => some f
  | none => formats.head?

/-- `get_swapchain_present_modes` (main.rs lines 589-595): `MAILBOX` if it
occurs in the list, else `FIFO`. -/
def get_swapchain_present_modes (present_modes : List PresentModeKHR) : PresentModeKHR :=
  match present_modes.find? (fun m => m == PresentModeKHR.mailbox) with
  | some m => m
  | none => PresentModeKHR.fifo

/-- `u32::clamp(self, min, max)`: Rust's `Ord::clamp` asserts `min <= max`
(panic modelled by `none`), then returns `min` if `self < min`, `max` if
`self > max`, else `self`. -/
def u32_clamp (x lo hi : Nat) : Option Nat :=
  if lo ≤ hi then some (if x < lo then lo else if x > hi then hi else x) else none

/-- `get_swapchain_extent` (main.rs lines 597-615): if the capabilities'
`current_extent.width` is not the `u32::MAX` sentinel, return `current_extent`
verbatim; otherwise clamp the window's inner size componentwise into
`[min_image_extent, max_image_extent]`. -/
def get_swapchain_extent (windowSize : Extent2D) (caps : SurfaceCapabilitiesKHR) :
    Option Extent2D :=
  if caps.currentExtent.width ≠ U32_MAX then
    some caps.currentExtent
  else
    match u32_clamp windowSize.width caps.minImageExtent.width caps.maxImageExtent.width,
          u32_clamp windowSize.height caps.minImageExtent.height caps.maxImageExtent.height with
    | some w, some h => some ⟨w, h⟩
    | _, _ => none

/-- The swapchain image-count computation of `create_swapchain` (main.rs lines
631-636): `min_image_count + 1` (u32 addition, hence `% 2^32`), capped at
`max_image_count` when that is non-zero and exceeded. -/
def swapchain_image_count (caps : SurfaceCapabilitiesKHR) : Nat :=
  let count := (caps.minImageCount + 1) % 4294967296
  if caps.maxImageCount ≠ 0 ∧ count > caps.maxImageCount then caps.maxImageCount else count

/-- The `unique_indices` hash set of `create_logical_device` (main.rs lines
480-482): the graphics and present queue-family indices, deduplicated.  One
`DeviceQueueCreateInfo` is built per element of this set. -/
def unique_queue_family_indices (graphics present : Nat) : Finset Nat :=
  insert graphics (insert present ∅)

/-- The `align_to::<u32>` reinterpretation of `create_shader_module` (main.rs
line 814) at the value level: groups of four bytes become one little-endian
32-bit word; a leftover group of fewer than four bytes means the byte length
is not a multiple of four, i.e. a non-empty suffix, modelled by `none`. -/
def bytes_to_words : List Nat → Option (List Nat)
  | [] => some []
  | b0 :: b1 :: b2 :: b3 :: rest =>
    (bytes_to_words rest).map (fun ws => (b0 + 256 * b1 + 65536 * b2 + 16777216 * b3) :: ws)
  | _ => none

/-- Inverse reinterpretation: each 32-bit word spelled out as its four
little-endian bytes. -/
def words_to_bytes : List Nat → List Nat
  | [] => []
  | w :: ws =>
    w % 256 :: w / 256 % 256 :: w / 65536 % 256 :: w / 16777216 % 256 :: words_to_bytes ws

/-- `create_shader_module` (main.rs lines 811-823): the shader binary must
reinterpret exactly as 32-bit words (empty `align_to` prefix and suffix), else
it panics with "SPIR-V not aligned correctly" (modelled by `none`); on success
the module is built from exactly those words. -/
def create_shader_module (buf : List Nat) : Option (List Nat) :=
  bytes_to_words buf

/-- `DebugUtilsMessageSeverityFlagsEXT::ERROR` (bit value 0x1000). -/
def SEVERITY_ERROR : Nat := 4096

/-- `DebugUtilsMessageSeverityFlagsEXT::WARNING` (bit value 0x100). -/
def SEVERITY_WARNING : Nat := 256

/-- `DebugUtilsMessageSeverityFlagsEXT::INFO` (bit value 0x10). -/
def SEVERITY_INFO : Nat := 16

/-- `DebugUtilsMessageSeverityFlagsEXT::VERBOSE` (bit value 0x1). -/
def SEVERITY_VERBOSE : Nat := 1

/-- The four logging branches of `debug_callback` (main.rs lines 334-342):
`tracing::error!`, `tracing::warn!`, `tracing::debug!` (the info branch) and
`tracing::trace!` (the verbose branch). -/
inductive LogLevel where
  | error
  | warning
  | info
  | verbose
deriving DecidableEq

/-- `debug_callback` (main.rs lines 325-345): classifies the reported severity
with an at-least-this-severe cascade (the flag values are ordinal), emits one
log record carrying the message, and returns `vk::FALSE`. -/
def debug_callback (severity : Nat) (message : String) : (LogLevel × String) × Nat :=
  if severity ≥ SEVERITY_ERROR then ((LogLevel.error, message), VK_FALSE)
  else if severity ≥ SEVERITY_WARNING then ((LogLevel.warning, message), VK_FALSE)
  else if severity ≥ SEVERITY_INFO then ((LogLevel.info, message), VK_FALSE)
  else ((LogLevel.verbose, message), VK_FALSE)

/-- The resources `App::create` builds and `App::destroy` releases with an
explicit destroy call.  Image views and framebuffers are destroyed as one
group each (a single loop in the source); command buffers are freed implicitly
by destroying their pool and so are not a separately destroyed resource. -/
inductive Resource where
  | vkInstance
  | debugMessenger
  | surface
  | logicalDevice
  | swapchain
  | imageViews
  | renderPass
  | pipelineLayout
  | pipeline
  | framebuffers
  | commandPool
  | imageAvailableSemaphore
  | renderFinishedSemaphore
deriving DecidableEq

/-- Creation order in `App::create` (main.rs lines 65-136): `create_instance`
creates the instance and then the debug messenger (lines 283-288), then the
surface is created (lines 71-113), then the logical device, swapchain, image
views, render pass, pipeline layout then pipeline (both in `create_pipeline`,
lines 786 and 803), framebuffers, command pool, and finally the
image-available then render-finished semaphores (lines 955-956). -/
def creation_order : List Resource :=
  [Resource.vkInstance, Resource.debugMessenger, Resource.surface,
   Resource.logicalDevice, Resource.swapchain, Resource.imageViews,
   Resource.renderPass, Resource.pipelineLayout, Resource.pipeline,
   Resource.framebuffers, Resource.commandPool,
   Resource.imageAvailableSemaphore, Resource.renderFinishedSemaphore]

/-- Destruction order in `App::destroy` (main.rs lines 184-220): semaphores
(render-finished then image-available), command pool, framebuffers, pipeline,
pipeline layout, render pass, image views, swapchain, logical device, debug
messenger, surface, instance. -/
def destruction_order : List Resource :=
  [Resource.renderFinishedSemaphore, Resource.imageAvailableSemaphore,
   Resource.commandPool, Resource.framebuffers, Resource.pipeline,
   Resource.pipelineLayout, Resource.renderPass, Resource.imageViews,
   Resource.swapchain, Resource.logicalDevice, Resource.debugMessenger,
   Resource.surface, Resource.vkInstance]

/-- The format `get_swapchain_surface_format` prefers:
`(B8G8R8A8_SRGB, SRGB_NONLINEAR)`. -/
def preferred_surface_format : SurfaceFormatKHR :=
  ⟨Format.b8g8r8a8Srgb, ColorSpaceKHR.srgbNonlinear⟩

/-- A concrete physical-device record passing every check, used to instantiate
universally quantified theorems. -/
def sample_device : PhysicalDeviceRecord where
  deviceType := PhysicalDeviceType.discreteGpu
  geometryShader := 1
  queueFamilies := [⟨true, true⟩]
  extensions := ["VK_KHR_swapchain"]
  formats := [⟨Format.b8g8r8a8Srgb, ColorSpaceKHR.srgbNonlinear⟩]
  presentModes := [PresentModeKHR.fifo]

theorem position_isSome_iff (p : α → Bool) (l : List α) :
    (position p l).isSome ↔ ∃ x ∈ l, p x := by
  induction l with
  | nil => simp [position]
  | cons x xs ih =>
    by_cases h : p x <;> simp [position, h, ih]

theorem queueFamilyIndices_get_isSome (qs : List QueueFamilyProperties) :
    (QueueFamilyIndices.get qs).isSome ↔
      (∃ q ∈ qs, q.graphics) ∧ (∃ q ∈ qs, q.present) := by
  have hg := position_isSome_iff (fun p => p.graphics) qs
  have hp := position_isSome_iff (fun p => p.present) qs
  unfold QueueFamilyIndices.get
  cases hg2 : position (fun p => p.graphics) qs
  all_goals cases hp2 : position (fun p => p.present) qs
  all_goals simp_all


theorem check_physical_device_extensions_iff (d : PhysicalDeviceRecord) :
    check_physical_device_extensions d = true ↔
      ∀ e ∈ DEVICE_EXTENSIONS, e ∈ d.extensions := by
  simp [check_physical_device_extensions, List.all_eq_true]

theorem check_physical_device_formats_ne_nil (d : PhysicalDeviceRecord)
    (h : check_physical_device d = true) : d.formats ≠ [] := by
  intro hnil
  unfold check_physical_device at h
  split_ifs at h with h1 h2 h3 h4 h5
  all_goals simp_all

/-- C1: `check_physical_device` returns `true` iff all five conditions hold:
discrete-GPU device type, geometry-shader feature flag set, both a
graphics-capable and a presentation-capable queue family index resolve, every
required device extension is present in the device's extension list, and both
the surface-format and present-mode lists are non-empty.  Falsifying any
single conjunct therefore makes it return `false`. -/
theorem check_physical_device_iff (d : PhysicalDeviceRecord) :
    check_physical_device d = true ↔
      d.deviceType = PhysicalDeviceType.discreteGpu ∧
      d.geometryShader = VK_TRUE ∧
      ((∃ q ∈ d.queueFamilies, q.graphics) ∧ (∃ q ∈ d.queueFamilies, q.present)) ∧
      (∀ e ∈ DEVICE_EXTENSIONS, e ∈ d.extensions) ∧
      (d.formats ≠ [] ∧ d.presentModes ≠ []) := by
  unfold check_physical_device
  rw [← queueFamilyIndices_get_isSome, ← check_physical_device_extensions_iff]
  split_ifs with h1 h2 h3 h4 h5
  all_goals simp_all [Option.isNone_iff_eq_none, Option.isSome_iff_ne_none,
    List.isEmpty_iff]
  all_goals tauto

/-- C1 witness: the sample device satisfies every conjunct, hence passes
`check_physical_device`. -/
theorem check_physical_device_iff_witness :
    check_physical_device sample_device = true :=
  (check_physical_device_iff sample_device).mpr (by decide)

/-- C3: present-mode selection returns `MAILBOX` whenever it occurs in the
list and `FIFO` otherwise; it is total and never returns a third mode. -/
theorem get_swapchain_present_modes_spec (modes : List PresentModeKHR) :
    (PresentModeKHR.mailbox ∈ modes →
      get_swapchain_present_modes modes = PresentModeKHR.mailbox) ∧
    (PresentModeKHR.mailbox ∉ modes →
      get_swapchain_present_modes modes = PresentModeKHR.fifo) ∧
    (get_swapchain_present_modes modes = PresentModeKHR.mailbox ∨
      get_swapchain_present_modes modes = PresentModeKHR.fifo) := by
  unfold get_swapchain_present_modes
  cases hf : modes.find? (fun m => m == PresentModeKHR.mailbox) with
  | none =>
    have hnm : PresentModeKHR.mailbox ∉ modes := by
      intro hm
      have := List.find?_eq_none.mp hf _ hm
      simp at this
    exact ⟨fun hm => absurd hm hnm, fun _ => rfl, Or.inr rfl⟩
  | some m =>
    have hm : m = PresentModeKHR.mailbox := by
      have := List.find?_some hf
      simpa using this
    subst hm
    exact ⟨fun _ => rfl,
      fun hn => absurd (List.mem_of_find?_eq_some hf) hn, Or.inl rfl⟩

/-- C3 witness: a list containing `MAILBOX` selects it; the empty list falls
back to `FIFO`. -/
theorem get_swapchain_present_modes_spec_witness :
    get_swapchain_present_modes [PresentModeKHR.fifo, PresentModeKHR.mailbox] =
        PresentModeKHR.mailbox ∧
      get_swapchain_present_modes [] = PresentModeKHR.fifo :=
  ⟨(get_swapchain_present_modes_spec _).1 (by decide),
   (get_swapchain_present_modes_spec _).2.1 (by decide)⟩

/-- C4: surface-format selection is deterministic and idempotent (it is a pure
function of the candidate list), and returns the preferred
`(B8G8R8A8_SRGB, SRGB_NONLINEAR)` format whenever it occurs anywhere in the
list. -/
theorem get_swapchain_surface_format_spec (formats : List SurfaceFormatKHR) :
    get_swapchain_surface_format formats = get_swapchain_surface_format formats ∧
    (preferred_surface_format ∈ formats →
      get_swapchain_surface_format formats = some preferred_surface_format) := by
  refine ⟨rfl, fun hmem => ?_⟩
  unfold get_swapchain_surface_format
  cases hf : formats.find? (fun f =>
      f.format == Format.b8g8r8a8Srgb && f.colorSpace == ColorSpaceKHR.srgbNonlinear) with
  | none =>
    have := List.find?_eq_none.mp hf _ hmem
    simp [preferred_surface_format] at this
  | some f =>
    have hp := List.find?_some hf
    have : f = preferred_surface_format := by
      cases f with
      | mk fm cs =>
        simp only [Bool.and_eq_true, beq_iff_eq] at hp
        simp [preferred_surface_format, hp.1, hp.2]
    rw [this]

/-- C4 witness: the preferred format is selected from a list where it occurs
in second position. -/
theorem get_swapchain_surface_format_spec_witness :
    get_swapchain_surface_format
        [⟨Format.b8g8r8a8Unorm, ColorSpaceKHR.srgbNonlinear⟩, preferred_surface_format] =
      some preferred_surface_format :=
  (get_swapchain_surface_format_spec _).2 (by decide)

/-- C10: surface-format selection is partial: on the empty list it panics (the
`formats[0]` fallback, modelled as `none`); on every non-empty list it is
total and returns an element of the list; and the panic is unreachable for a
device accepted by `check_physical_device`, which rejects empty format
lists. -/
theorem get_swapchain_surface_format_totality (formats : List SurfaceFormatKHR)
    (d : PhysicalDeviceRecord) :
    get_swapchain_surface_format [] = none ∧
    (formats ≠ [] →
      ∃ f, get_swapchain_surface_format formats = some f ∧ f ∈ formats) ∧
    (check_physical_device d = true →
      (get_swapchain_surface_format d.formats).isSome) := by
  have total : ∀ l : List SurfaceFormatKHR, l ≠ [] →
      ∃ f, get_swapchain_surface_format l = some f ∧ f ∈ l := by
    intro l hne
    unfold get_swapchain_surface_format
    cases hf : l.find? (fun f =>
        f.format == Format.b8g8r8a8Srgb && f.colorSpace == ColorSpaceKHR.srgbNonlinear) with
    | none =>
      cases l with
      | nil => exact absurd rfl hne
      | cons x xs => exact ⟨x, rfl, List.mem_cons_self x xs⟩
    | some f => exact ⟨f, rfl, List.mem_of_find?_eq_some hf⟩
  refine ⟨rfl, total formats, fun hchk => ?_⟩
  obtain ⟨f, hf, _⟩ := total d.formats (check_physical_device_formats_ne_nil d hchk)
  simp [hf]

/-- C10 witness: a concrete non-empty list yields an element of itself, and
the sample device (which passes the check) yields `some`. -/
theorem get_swapchain_surface_format_totality_witness :
    (∃ f, get_swapchain_surface_format
        [⟨Format.b8g8r8a8Unorm, ColorSpaceKHR.displayP3Nonlinear⟩] = some f ∧
      f ∈ [⟨Format.b8g8r8a8Unorm, ColorSpaceKHR.displayP3Nonlinear⟩]) ∧
    (get_swapchain_surface_format sample_device.formats).isSome :=
  ⟨(get_swapchain_surface_format_totality _ sample_device).2.1 (by decide),
   (get_swapchain_surface_format_totality [] sample_device).2.2 (by decide)⟩

/-- C2 counterexample: the destruction order is not the exact reverse of the
creation order.  `create_instance` creates the debug messenger before the
surface is created, yet `App::destroy` also destroys the messenger before the
surface, so the messenger/surface pair violates exact reversal. -/
theorem destruction_order_not_reverse_creation :
    destruction_order ≠ creation_order.reverse := by decide

/-- C2 amended: teardown destroys exactly the resources that were created, in
the claimed sequence (semaphores, command pool, framebuffers, pipeline,
pipeline layout, render pass, image views, swapchain, logical device, debug
messenger, surface, instance), and this sequence is the exact reverse of the
creation order except for the debug messenger: dropping either the messenger
or the surface from both sequences, destruction is the exact reverse of
creation. -/
theorem destruction_order_reverse_except_messenger :
    List.Perm destruction_order creation_order ∧
    destruction_order.filter (fun r => r != Resource.debugMessenger) =
      (creation_order.filter (fun r => r != Resource.debugMessenger)).reverse ∧
    destruction_order.filter (fun r => r != Resource.surface) =
      (creation_order.filter (fun r => r != Resource.surface)).reverse := by
  refine ⟨by decide, by decide, by decide⟩

/-- C5: if the capabilities' current-extent width is not the `u32::MAX`
sentinel, the computed extent equals the current extent exactly; otherwise
(provided the clamp bounds are ordered, as Rust's `clamp` asserts) the width
and height are the window's inner size clamped into
`[min_image_extent, max_image_extent]`, hence never outside those bounds. -/
theorem get_swapchain_extent_spec (ws : Extent2D) (caps : SurfaceCapabilitiesKHR) :
    (caps.currentExtent.width ≠ U32_MAX →
      get_swapchain_extent ws caps = some caps.currentExtent) ∧
    (caps.currentExtent.width = U32_MAX →
      caps.minImageExtent.width ≤ caps.maxImageExtent.width →
      caps.minImageExtent.height ≤ caps.maxImageExtent.height →
      ∃ e, get_swapchain_extent ws caps = some e ∧
        u32_clamp ws.width caps.minImageExtent.width caps.maxImageExtent.width =
          some e.width ∧
        u32_clamp ws.height caps.minImageExtent.height caps.maxImageExtent.height =
          some e.height ∧
        caps.minImageExtent.width ≤ e.width ∧ e.width ≤ caps.maxImageExtent.width ∧
        caps.minImageExtent.height ≤ e.height ∧ e.height ≤ caps.maxImageExtent.height) := by
  have clamp_spec : ∀ x lo hi : Nat, lo ≤ hi →
      ∃ y, u32_clamp x lo hi = some y ∧ lo ≤ y ∧ y ≤ hi := by
    intro x lo hi h
    unfold u32_clamp
    rw [if_pos h]
    refine ⟨_, rfl, ?_, ?_⟩ <;> split_ifs <;> omega
  constructor
  · intro h
    simp [get_swapchain_extent, h]
  · intro hcur hw hh
    obtain ⟨w, hwc, hw1, hw2⟩ := clamp_spec ws.width _ _ hw
    obtain ⟨t, htc, ht1, ht2⟩ := clamp_spec ws.height _ _ hh
    refine ⟨⟨w, t⟩, ?_, hwc, htc, hw1, hw2, ht1, ht2⟩
    simp [get_swapchain_extent, hcur, hwc, htc]

/-- C5 witness: a defined current extent is returned verbatim; the sentinel
case clamps a 800×600 window into bounds `[100,500]×[100,400]`. -/
theorem get_swapchain_extent_spec_witness :
    get_swapchain_extent ⟨800, 600⟩ ⟨2, 0, ⟨640, 480⟩, ⟨100, 100⟩, ⟨500, 400⟩⟩ =
        some ⟨640, 480⟩ ∧
      ∃ e, get_swapchain_extent ⟨800, 600⟩
          ⟨2, 0, ⟨U32_MAX, 480⟩, ⟨100, 100⟩, ⟨500, 400⟩⟩ = some e ∧
        u32_clamp 800 100 500 = some e.width ∧
        u32_clamp 600 100 400 = some e.height ∧
        100 ≤ e.width ∧ e.width ≤ 500 ∧ 100 ≤ e.height ∧ e.height ≤ 400 :=
  ⟨(get_swapchain_extent_spec ⟨800, 600⟩ _).1 (by decide),
   (get_swapchain_extent_spec ⟨800, 600⟩ _).2 (by decide) (by decide) (by decide)⟩

/-- C6: the requested swapchain image count is `min_image_count + 1`, except
that when `max_image_count` is non-zero and exceeded the count is capped at
`max_image_count`; in particular `(min 2, max 0)` yields 3 and `(min 2, max 2)`
yields 2.  (The u32 addition is assumed not to overflow.) -/
theorem swapchain_image_count_spec (caps : SurfaceCapabilitiesKHR)
    (hof : caps.minImageCount + 1 < 4294967296) :
    (caps.maxImageCount ≠ 0 → caps.minImageCount + 1 > caps.maxImageCount →
      swapchain_image_count caps = caps.maxImageCount) ∧
    (caps.maxImageCount = 0 ∨ caps.minImageCount + 1 ≤ caps.maxImageCount →
      swapchain_image_count caps = caps.minImageCount + 1) ∧
    swapchain_image_count ⟨2, 0, ⟨0, 0⟩, ⟨0, 0⟩, ⟨0, 0⟩⟩ = 3 ∧
    swapchain_image_count ⟨2, 2, ⟨0, 0⟩, ⟨0, 0⟩, ⟨0, 0⟩⟩ = 2 := by
  have hmod : (caps.minImageCount + 1) % 4294967296 = caps.minImageCount + 1 :=
    Nat.mod_eq_of_lt hof
  refine ⟨?_, ?_, by decide, by decide⟩
  · intro h1 h2
    simp [swapchain_image_count, hmod, h1, h2]
  · intro h
    unfold swapchain_image_count
    rw [hmod, if_neg]
    rintro ⟨hne, hgt⟩
    rcases h with h | h <;> omega

/-- C6 witness: both spec scenarios, derived from the theorem at the concrete
capability records. -/
theorem swapchain_image_count_spec_witness :
    swapchain_image_count ⟨2, 0, ⟨0, 0⟩, ⟨0, 0⟩, ⟨0, 0⟩⟩ = 2 + 1 ∧
      swapchain_image_count ⟨2, 2, ⟨0, 0⟩, ⟨0, 0⟩, ⟨0, 0⟩⟩ = 2 :=
  ⟨(swapchain_image_count_spec ⟨2, 0, ⟨0, 0⟩, ⟨0, 0⟩, ⟨0, 0⟩⟩ (by decide)).2.1
      (Or.inl rfl),
   (swapchain_image_count_spec ⟨2, 2, ⟨0, 0⟩, ⟨0, 0⟩, ⟨0, 0⟩⟩ (by decide)).1
      (by decide) (by decide)⟩

/-- C7: the deduplicated set of queue-family indices used for logical-device
creation has cardinality 1 when the graphics index equals the present index
and cardinality 2 when they differ. -/
theorem unique_queue_family_indices_card (graphics present : Nat) :
    (graphics = present → (unique_queue_family_indices graphics present).card = 1) ∧
    (graphics ≠ present → (unique_queue_family_indices graphics present).card = 2) := by
  constructor
  · intro h
    subst h
    simp [unique_queue_family_indices]
  · intro h
    have he : unique_queue_family_indices graphics present = {graphics, present} := rfl
    rw [he, Finset.card_pair h]

/-- C7 witness: equal indices give one unique family, distinct indices two. -/
theorem unique_queue_family_indices_card_witness :
    (unique_queue_family_indices 0 0).card = 1 ∧
      (unique_queue_family_indices 0 1).card = 2 :=
  ⟨(unique_queue_family_indices_card 0 0).1 rfl,
   (unique_queue_family_indices_card 0 1).2 (by decide)⟩

theorem bytes_to_words_eq_none_iff (buf : List Nat) :
    bytes_to_words buf = none ↔ buf.length % 4 ≠ 0 := by
  induction buf using bytes_to_words.induct with
  | case1 => simp [bytes_to_words]
  | case2 b0 b1 b2 b3 rest ih =>
    cases h : bytes_to_words rest with
    | none =>
      have hr := ih.mp h
      simp only [bytes_to_words, h, Option.map_none', List.length_cons, ne_eq]
      constructor
      · intro _
        omega
      · intro _
        trivial
    | some ws =>
      have hr : rest.length % 4 = 0 := by
        by_contra hc
        exact Option.noConfusion ((h ▸ ih.mpr hc : (some ws : Option (List Nat)) = none))
      simp only [bytes_to_words, h, Option.map_some', List.length_cons, ne_eq]
      constructor
      · intro hsn
        exact Option.noConfusion hsn
      · intro hlen
        omega
  | case3 t h1 h2 =>
    have hn : bytes_to_words t = none := by
      match t with
      | [] => exact absurd rfl h1
      | [b0] => rfl
      | [b0, b1] => rfl
      | [b0, b1, b2] => rfl
      | b0 :: b1 :: b2 :: b3 :: rest => exact (h2 b0 b1 b2 b3 rest rfl).elim
    have hl : t.length % 4 ≠ 0 := by
      match t with
      | [] => exact absurd rfl h1
      | [b0] => simp
      | [b0, b1] => simp
      | [b0, b1, b2] => simp
      | b0 :: b1 :: b2 :: b3 :: rest => exact (h2 b0 b1 b2 b3 rest rfl).elim
    simp [hn, hl]

theorem bytes_to_words_roundtrip (buf : List Nat) (hb : ∀ b ∈ buf, b < 256)
    (hlen : buf.length % 4 = 0) :
    ∃ ws, bytes_to_words buf = some ws ∧ words_to_bytes ws = buf ∧
      ws.length = buf.length / 4 := by
  induction buf using bytes_to_words.induct with
  | case1 => exact ⟨[], rfl, rfl, rfl⟩
  | case2 b0 b1 b2 b3 rest ih =>
    have hrest : rest.length % 4 = 0 := by
      simp only [List.length_cons] at hlen
      omega
    have hbr : ∀ b ∈ rest, b < 256 := fun b hm => hb b (by simp [hm])
    obtain ⟨ws, hws, hrt, hlw⟩ := ih hbr hrest
    have h0 : b0 < 256 := hb b0 (by simp)
    have h1 : b1 < 256 := hb b1 (by simp)
    have h2 : b2 < 256 := hb b2 (by simp)
    have h3 : b3 < 256 := hb b3 (by simp)
    refine ⟨(b0 + 256 * b1 + 65536 * b2 + 16777216 * b3) :: ws, ?_, ?_, ?_⟩
    · simp [bytes_to_words, hws]
    · simp only [words_to_bytes, hrt]
      have e0 : (b0 + 256 * b1 + 65536 * b2 + 16777216 * b3) % 256 = b0 := by omega
      have e1 : (b0 + 256 * b1 + 65536 * b2 + 16777216 * b3) / 256 % 256 = b1 := by omega
      have e2 : (b0 + 256 * b1 + 65536 * b2 + 16777216 * b3) / 65536 % 256 = b2 := by
        omega
      have e3 : (b0 + 256 * b1 + 65536 * b2 + 16777216 * b3) / 16777216 % 256 = b3 := by
        omega
      rw [e0, e1, e2, e3]
    · simp only [List.length_cons, hlw]
      omega
  | case3 t hne hcons =>
    exfalso
    match t, hlen with
    | [], _ => exact hne rfl
    | [b0], hlen => simp at hlen
    | [b0, b1], hlen => simp at hlen
    | [b0, b1, b2], hlen => simp at hlen
    | b0 :: b1 :: b2 :: b3 :: rest, _ => exact hcons b0 b1 b2 b3 rest rfl

/-- C8: shader-module creation succeeds iff the binary's byte length is a
multiple of 4, in which case the module is built from exactly the words whose
little-endian bytes re-concatenate to the input (no leftover prefix or
suffix); a misaligned binary is a fatal panic, modelled as `none`. -/
theorem create_shader_module_spec (buf : List Nat) (hb : ∀ b ∈ buf, b < 256) :
    (buf.length % 4 ≠ 0 → create_shader_module buf = none) ∧
    (buf.length % 4 = 0 →
      ∃ ws, create_shader_module buf = some ws ∧ words_to_bytes ws = buf ∧
        ws.length = buf.length / 4) :=
  ⟨fun h => (bytes_to_words_eq_none_iff buf).mpr h,
   fun h => bytes_to_words_roundtrip buf hb h⟩

/-- C8 witness: a 5-byte binary is rejected; an 8-byte binary yields exactly
its two little-endian words. -/
theorem create_shader_module_spec_witness :
    create_shader_module [3, 2, 35, 7, 0] = none ∧
      ∃ ws, create_shader_module [3, 2, 35, 7, 0, 1, 0, 0] = some ws ∧
        words_to_bytes ws = [3, 2, 35, 7, 0, 1, 0, 0] ∧
        ws.length = ([3, 2, 35, 7, 0, 1, 0, 0] : List Nat).length / 4 :=
  ⟨(create_shader_module_spec [3, 2, 35, 7, 0] (by decide)).1 (by decide),
   (create_shader_module_spec [3, 2, 35, 7, 0, 1, 0, 0] (by decide)).2 (by decide)⟩

/-- C9: the debug callback classifies every message into exactly one of the
four severity branches with the at-least-this-severe cascade (error if the
severity is at least `ERROR`, else warning if at least `WARNING`, else info if
at least `INFO`, else verbose), forwards the message unchanged to the logging
sink, and always returns `vk::FALSE`. -/
theorem debug_callback_spec (severity : Nat) (message : String) :
    (debug_callback severity message).2 = VK_FALSE ∧
    (debug_callback severity message).1.2 = message ∧
    (severity ≥ SEVERITY_ERROR →
      (debug_callback severity message).1.1 = LogLevel.error) ∧
    (severity < SEVERITY_ERROR → severity ≥ SEVERITY_WARNING →
      (debug_callback severity message).1.1 = LogLevel.warning) ∧
    (severity < SEVERITY_WARNING → severity ≥ SEVERITY_INFO →
      (debug_callback severity message).1.1 = LogLevel.info) ∧
    (severity < SEVERITY_INFO →
      (debug_callback severity message).1.1 = LogLevel.verbose) := by
  unfold debug_callback SEVERITY_ERROR SEVERITY_WARNING SEVERITY_INFO
  split_ifs with h1 h2 h3 <;>
    refine ⟨rfl, rfl, ?_, ?_, ?_, ?_⟩ <;>
      intros <;>
        first
          | rfl
          | (exfalso; omega)

/-- C9 witness: the severity bit values of the four flags land in their four
respective branches, each returning `vk::FALSE`. -/
theorem debug_callback_spec_witness :
    (debug_callback 4096 "m").1.1 = LogLevel.error ∧
      (debug_callback 256 "m").1.1 = LogLevel.warning ∧
      (debug_callback 16 "m").1.1 = LogLevel.info ∧
      (debug_callback 1 "m").1.1 = LogLevel.verbose ∧
      (debug_callback 4096 "m").2 = VK_FALSE :=
  ⟨(debug_callback_spec 4096 "m").2.2.1 (by decide),
   (debug_callback_spec 256 "m").2.2.2.1 (by decide) (by decide),
   (debug_callback_spec 16 "m").2.2.2.2.1 (by decide) (by decide),
   (debug_callback_spec 1 "m").2.2.2.2.2 (by decide),
   (debug_callback_spec 4096 "m").1⟩

end HelloVulkan
